import Mathlib

/-!
# Verification of the ChangeX Neurix front end

Shallow embedding of the ChangeX Neurix API client (`NeurixAPI`) and of the
service worker fetch policies, together with proofs of the behavioural
properties stated in the specification.

Times are modelled as `Int` milliseconds (the range used by `Date.now()` is
exactly representable in JavaScript numbers).  A fallible operation is
modelled with `Except`; a JavaScript value that may be `undefined` or `null`
is modelled with `Option`.  Network and cache contents are passed explicitly
as parameters, and functions that mutate a cache return the new cache
contents alongside their result.
-/

deriving instance DecidableEq for Except

namespace Neurix

/-- HTTP request method. -/
inductive Method where
  | GET
  | POST
  | PUT
  | PATCH
  | DELETE
  deriving DecidableEq, Repr

/-- An error thrown by the API client.  `status` is `none` when the
JavaScript error object carries no `status` field (a network-level
failure); it is `some s` for an HTTP error produced by `handleError`. -/
structure ApiError where
  status : Option Int
  message : String
  deriving DecidableEq, Repr

/-- JavaScript `a || b` on an optional string: `null`, `undefined` and the
empty string are falsy, so they all fall through to the default. -/
def jsOrString (s : Option String) (dflt : String) : String :=
  match s with
  | some t => if t = "" then dflt else t
  | none => dflt

/-- `Response.ok`: status in the range [200, 300). -/
def respOkInt (status : Int) : Bool :=
  200 ≤ status && status < 300

/-- `NeurixAPI.handleError` (src/unnamed/part_000 lines 143-194).
Given the response status, the optional `data.message` of the parsed body,
and whether the `onTokenExpired` / `onRateLimitExceeded` callbacks are
configured, it returns the error that the method throws together with two
flags: whether `onTokenExpired` was invoked and whether
`onRateLimitExceeded` was invoked.  The method always throws. -/
def handleError (status : Int) (dataMsg : Option String)
    (hasTokenExpired hasRateLimit : Bool) : ApiError × Bool × Bool :=
  let base := jsOrString dataMsg ("HTTP " ++ toString status)
  if status = 401 then
    (⟨some status, base⟩, hasTokenExpired, false)
  else if status = 403 then
    (⟨some status, "You do not have permission to perform this action"⟩, false, false)
  else if status = 404 then
    (⟨some status, "The requested resource was not found"⟩, false, false)
  else if status = 422 then
    (⟨some status, "Validation failed"⟩, false, false)
  else if status = 429 then
    (⟨some status, "Rate limit exceeded. Please try again later."⟩, false, hasRateLimit)
  else if status = 500 then
    (⟨some status, "Internal server error. Please try again later."⟩, false, false)
  else if status = 502 ∨ status = 503 ∨ status = 504 then
    (⟨some status, "Service temporarily unavailable. Please try again later."⟩, false, false)
  else
    (⟨some status, base⟩, false, false)

/-- The value returned by `NeurixAPI.request` on the success path
(`{ success: true, status, data, ... }`); the parsed body is abstracted to
its optional `message` field, the only part the error path inspects. -/
structure ReqSuccess where
  status : Int
  dataMsg : Option String
  deriving DecidableEq, Repr

/-- The catch block of `NeurixAPI.request`
(src/unnamed/part_000 lines 126-136): every error thrown inside the try
block — the errors thrown by `handleError` included — is caught here and,
when `navigator.onLine` is false, replaced by a fresh error with no
`status` field; otherwise the caught error is rethrown unchanged. -/
def requestCatch (e : ApiError) (online : Bool) : ApiError :=
  if !online then
    ⟨none, "Network connection lost. Please check your internet connection."⟩
  else e

/-- The response-handling step of `NeurixAPI.request`
(src/unnamed/part_000 lines 106-136): when the response is not ok the
method awaits `handleError`, which throws; that throw is caught by the
try/catch of `request` itself, whose catch block (`requestCatch`) replaces
the error with a status-less network-connection-lost error when
`navigator.onLine` is false.  On an ok response the success record is
returned.  The two flags report callback invocations exactly as in
`handleError` (the callbacks run inside `handleError`, before the throw
reaches the catch block). -/
def processResponse (status : Int) (dataMsg : Option String)
    (hasTokenExpired hasRateLimit : Bool) (online : Bool) :
    Except ApiError ReqSuccess × Bool × Bool :=
  if respOkInt status then
    (.ok ⟨status, dataMsg⟩, false, false)
  else
    let r := handleError status dataMsg hasTokenExpired hasRateLimit
    (.error (requestCatch r.1 online), r.2.1, r.2.2)

/-- `NeurixAPI.generateRequestId` (src/unnamed/part_000 lines 420-422):
`req_${Date.now()}_${random base36 suffix}`.  The current time and the
random suffix are parameters. -/
def generateRequestId (now : Int) (rand : String) : String :=
  "req_" ++ toString now ++ "_" ++ rand

/-- An entry of the in-flight request ledger `this.requests`
(src/unnamed/part_000 lines 69-75). -/
structure LedgerEntry where
  id : String
  endpoint : String
  method : Method
  timestamp : Int
  status : String
  deriving DecidableEq, Repr

/-- The ledger entry recorded by `NeurixAPI.request` at the start of a
call made at time `now` with random suffix `rand`
(src/unnamed/part_000 lines 44 and 69-75). -/
def trackRequest (now : Int) (rand endpoint : String) (method : Method) :
    LedgerEntry :=
  ⟨generateRequestId now rand, endpoint, method, now, "pending"⟩

/-- A `localStorage` cache entry written by `NeurixAPI.getWithCache`:
the payload together with the time at which it was stored. -/
structure CacheEntry (V : Type) where
  data : V
  timestamp : Int
  deriving DecidableEq, Repr

/-- The record returned by `NeurixAPI.getWithCache`:
`{ success, data, cached }`, with `offline` additionally set on the
stale-cache fallback path. -/
structure GWCResult (V : Type) where
  success : Bool
  data : V
  cached : Bool
  offline : Bool
  deriving DecidableEq, Repr

/-- Full outcome of a `getWithCache` call: the returned (or thrown) value,
the cache entry stored under the endpoint key afterwards, and whether a
network request was issued. -/
structure GWCOutcome (V : Type) where
  result : Except ApiError (GWCResult V)
  newCache : Option (CacheEntry V)
  fetched : Bool
  deriving DecidableEq, Repr

/-- The fetch branch of `NeurixAPI.getWithCache`
(src/unnamed/part_000 lines 390-407): fetch the endpoint; on success store
the payload with the current timestamp and return it with `cached: false`;
on failure return the (possibly expired) cached payload only when the
browser reports offline (`!navigator.onLine`) and a cached entry exists,
and otherwise rethrow the fetch error. -/
def gwcFetch {V : Type} (cached : Option (CacheEntry V)) (now : Int)
    (net : Except ApiError V) (online : Bool) : GWCOutcome V :=
  match net with
  | .ok v => ⟨.ok ⟨true, v, false, false⟩, some ⟨v, now⟩, true⟩
  | .error e =>
    if !online then
      match cached with
      | some c => ⟨.ok ⟨true, c.data, true, true⟩, some c, true⟩
      | none => ⟨.error e, none, true⟩
    else ⟨.error e, cached, true⟩

/-- `NeurixAPI.getWithCache` (src/unnamed/part_000 lines 378-408).
`cached` is the parsed entry under the `api_cache_` key for the endpoint
(or `none`), `ttl` the time-to-live argument, `now` the current time,
`net` the outcome the underlying `this.get(endpoint)` call would produce,
and `online` the value of `navigator.onLine`.  If a cached entry exists
whose age is strictly below `ttl` it is returned with `cached: true` and
no network request is made; otherwise the fetch branch runs. -/
def getWithCache {V : Type} (cached : Option (CacheEntry V)) (ttl now : Int)
    (net : Except ApiError V) (online : Bool) : GWCOutcome V :=
  match cached with
  | some c =>
    if now - c.timestamp < ttl then
      ⟨.ok ⟨true, c.data, true, false⟩, some c, false⟩
    else gwcFetch (some c) now net online
  | none => gwcFetch none now net online

/-- The staleness test of `getWithCache`: a cached entry exists and its age
is strictly below the time-to-live. -/
def cacheFresh {V : Type} (cached : Option (CacheEntry V)) (ttl now : Int) :
    Bool :=
  match cached with
  | some c => now - c.timestamp < ttl
  | none => false

/-- The retry guard of `NeurixAPI.retry` (src/unnamed/part_000 line 478):
an error stops further attempts exactly when it carries a status in
[400, 500) other than 429.  An error without a status (a network failure)
is retried, since in JavaScript `undefined >= 400` is false. -/
def nonRetryable (e : ApiError) : Bool :=
  match e.status with
  | some s => 400 ≤ s && s < 500 && s ≠ 429
  | none => false

/-- Execution trace of a `retry` call: the final outcome (`Except.error
none` models `throw undefined`, reachable only when `maxRetries = 0`),
the list of backoff delays awaited in order, and the number of times
`requestFn` was invoked. -/
structure RetryTrace (V : Type) where
  result : Except (Option ApiError) V
  delays : List Int
  calls : Nat
  deriving DecidableEq, Repr

/-- Loop of `NeurixAPI.retry` (src/unnamed/part_000 lines 468-488).
`attempt k` is the outcome of the k-th invocation of `requestFn`
(counting from 0), `i` the current loop index, `remaining` the number of
iterations left, and `lastError` the error saved so far.  Each failed
attempt saves its error; a non-retryable failure breaks out of the loop;
a retryable failure awaits `delayMs * 2 ^ i` and continues; when the loop
ends without a success the saved error is thrown. -/
def retryAux {V : Type} (attempt : Nat → Except ApiError V) (delayMs : Int) :
    Nat → Nat → Option ApiError → RetryTrace V
  | _, 0, lastError => ⟨.error lastError, [], 0⟩
  | i, r + 1, _ =>
    match attempt i with
    | .ok v => ⟨.ok v, [], 1⟩
    | .error e =>
      if nonRetryable e then ⟨.error (some e), [], 1⟩
      else
        let t := retryAux attempt delayMs (i + 1) r (some e)
        ⟨t.result, delayMs * 2 ^ i :: t.delays, t.calls + 1⟩

/-- `NeurixAPI.retry(requestFn, maxRetries, delayMs)`
(src/unnamed/part_000 lines 468-488). -/
def retry {V : Type} (attempt : Nat → Except ApiError V)
    (maxRetries : Nat) (delayMs : Int) : RetryTrace V :=
  retryAux attempt delayMs 0 maxRetries none

/-- The backoff delays awaited by the retry loop when it runs `k`
consecutive retryable failures starting at loop index `i`:
`delayMs * 2 ^ i, delayMs * 2 ^ (i+1), ...`. -/
def delaysExpected (delayMs : Int) (i k : Nat) : List Int :=
  (List.range k).map (fun j => delayMs * 2 ^ (i + j))

/-- An element of the array returned by `NeurixAPI.batch`
(src/unnamed/part_000 lines 331-333): `{ success: true, data }` or
`{ success: false, error }`. -/
inductive BatchEntry (V : Type) where
  | ok : V → BatchEntry V
  | err : ApiError → BatchEntry V
  deriving DecidableEq, Repr

/-- The per-request try/catch body of `NeurixAPI.batch`. -/
def batchEntryOf {V : Type} (r : Except ApiError V) : BatchEntry V :=
  match r with
  | .ok v => .ok v
  | .error e => .err e

/-- `NeurixAPI.batch(requests)` (src/unnamed/part_000 lines 319-338).
The requests are executed one after another in input order; `exec r`
is the outcome `this.request(r.method, r.endpoint, r.data, r.options)`
would produce for descriptor `r`.  Every outcome, success or error, is
pushed as its own result entry, so `batch` itself never throws. -/
def batch {R V : Type} (exec : R → Except ApiError V) :
    List R → List (BatchEntry V)
  | [] => []
  | r :: rest => batchEntryOf (exec r) :: batch exec rest

/-! ## Service worker (src/scripts/components.js lines 1918-2139) -/

/-- A service worker `Response`, abstracted to its status and body. -/
structure SWResponse where
  status : Int
  body : String
  deriving DecidableEq, Repr

/-- `Response.ok` for the service worker model. -/
def swRespOk (r : SWResponse) : Bool :=
  respOkInt r.status

/-- An entry of the API cache (`API_CACHE_NAME`): the response together
with the time recorded in its `sw-cached-time` header.  Entries of this
cache are written only by `handleApiRequest`, which always sets the
header. -/
structure CachedApi where
  resp : SWResponse
  time : Int
  deriving DecidableEq, Repr

/-- The cache time-to-live used by `handleApiRequest`
(src/scripts/components.js line 2067): five minutes. -/
def apiCacheTtl : Int := 5 * 60 * 1000

/-- The JSON error response built by `handleApiRequest` when the network
fails and no cached response exists
(src/scripts/components.js lines 2105-2112). -/
def swOfflineErrorResponse : SWResponse :=
  ⟨503, "You are offline and no cached data is available."⟩

/-- The network/fallback part of `handleApiRequest`
(src/scripts/components.js lines 2072-2113): fetch the request; on success
cache the response (with a `sw-cached-time` header) when it is ok and the
method is GET, and return it; on fetch failure return the cached response
when one exists and otherwise a 503 JSON error.  `net` is `none` when the
fetch throws.  Returns the response together with the new cache entry for
the request URL. -/
def handleApiFetch (method : Method) (cached : Option CachedApi)
    (net : Option SWResponse) (now : Int) : SWResponse × Option CachedApi :=
  match net with
  | some r =>
    if swRespOk r ∧ method = .GET then (r, some ⟨r, now⟩)
    else (r, cached)
  | none =>
    match cached with
    | some c => (c.resp, some c)
    | none => (swOfflineErrorResponse, none)

/-- `handleApiRequest` (src/scripts/components.js lines 2052-2114).
`cached` is the API-cache entry for the request URL.  When a cached
response exists whose age is below five minutes and the method is GET, it
is returned without touching the network; otherwise the fetch branch
runs. -/
def handleApiRequest (method : Method) (cached : Option CachedApi)
    (net : Option SWResponse) (now : Int) : SWResponse × Option CachedApi :=
  match cached with
  | some c =>
    if now - c.time < apiCacheTtl ∧ method = .GET then (c.resp, some c)
    else handleApiFetch method (some c) net now
  | none => handleApiFetch method none net now

/-- `handlePageNavigation` (src/scripts/components.js lines 2117-2139).
`net` is the network outcome, `cachedPage` the page cache entry for the
request, and `offlinePage` the cache lookup result for `/offline.html`.
Network first: on success the response is returned and stored in the page
cache (unconditionally); on failure the cached copy is returned when
present, and otherwise the `/offline.html` lookup result is returned.
Returns the response (`none` when every fallback misses) together with
the new page-cache entry for the request. -/
def handlePageNavigation (net cachedPage offlinePage : Option SWResponse) :
    Option SWResponse × Option SWResponse :=
  match net with
  | some r => (some r, some r)
  | none =>
    match cachedPage with
    | some c => (some c, cachedPage)
    | none => (offlinePage, cachedPage)

/-- `Request.mode` of a fetch event. -/
inductive ReqMode where
  | navigate
  | cors
  | noCors
  | sameOrigin
  deriving DecidableEq, Repr

/-- JavaScript `s.startsWith(p)`, rendered on the underlying character
lists so that it evaluates inside the kernel. -/
def strStartsWith (s p : String) : Bool :=
  List.isPrefixOf p.data s.data

/-- A fetch-event request, abstracted to the fields the dispatcher
inspects: method, URL protocol, URL pathname and mode. -/
structure SWRequest where
  method : Method
  protocol : String
  path : String
  mode : ReqMode
  deriving DecidableEq, Repr

/-- Which branch of the fetch listener handles a request. -/
inductive SWHandler where
  | passThrough
  | api
  | navigation
  | staticAsset
  deriving DecidableEq, Repr

/-- The dispatch logic of the fetch event listener
(src/scripts/components.js lines 1987-2009): non-GET requests and
chrome-extension requests are not responded to (they pass through to the
network untouched); requests whose pathname starts with `/api/` go to
`handleApiRequest`; navigation requests go to `handlePageNavigation`;
everything else goes to the static-asset branch. -/
def fetchHandlerFor (req : SWRequest) : SWHandler :=
  if req.method ≠ .GET then .passThrough
  else if req.protocol = "chrome-extension:" then .passThrough
  else if strStartsWith req.path "/api/" then .api
  else if req.mode = .navigate then .navigation
  else .staticAsset

/-! ## Theorems -/

/-- Claim C1, counterexample.  A `getWithCache` call with a warm (stale)
cache entry whose network fetch fails while the browser reports online
(`navigator.onLine` true) rethrows the fetch error instead of returning
the cached payload as a success result: the claim as stated is false.
Input: cached entry `{data: 42, timestamp: 0}`, `ttl = 1000`,
`now = 5000`, fetch failing with a network error, `online = true`. -/
theorem C1_counterexample :
    (getWithCache (V := Nat) (some ⟨42, 0⟩) 1000 5000
        (Except.error ⟨none, "fail"⟩) true).result =
      Except.error ⟨none, "fail"⟩ ∧
    (getWithCache (V := Nat) (some ⟨42, 0⟩) 1000 5000
        (Except.error ⟨none, "fail"⟩) true).result ≠
      Except.ok ⟨true, 42, true, true⟩ := by
  constructor
  · rfl
  · decide

/-- Claim C1, amended: when the network fetch of `getWithCache` fails
while the browser reports offline (`navigator.onLine` false) and a cached
entry exists, the cached payload is returned as a success result with
`cached: true`; and every API request handled by the service worker whose
network fetch fails while a cached response exists gets the cached
response. -/
theorem C1_cache_fallback :
    (∀ (V : Type) (c : CacheEntry V) (ttl now : Int) (e : ApiError),
      ∃ r, (getWithCache (some c) ttl now (Except.error e) false).result =
          Except.ok r ∧ r.success = true ∧ r.data = c.data ∧ r.cached = true) ∧
    (∀ (method : Method) (c : CachedApi) (now : Int),
      (handleApiRequest method (some c) none now).1 = c.resp) := by
  constructor
  · intro V c ttl now e
    by_cases h : now - c.timestamp < ttl
    · exact ⟨⟨true, c.data, true, false⟩, by simp [getWithCache, h], rfl, rfl, rfl⟩
    · exact ⟨⟨true, c.data, true, true⟩, by simp [getWithCache, h, gwcFetch], rfl, rfl, rfl⟩
  · intro method c now
    by_cases h : now - c.time < apiCacheTtl ∧ method = .GET
    · simp [handleApiRequest, h]
    · simp [handleApiRequest, h, handleApiFetch]

/-- Claim C1 witness for the amended theorem: offline fetch failure with
a stale cached entry `{data: 42, timestamp: 0}` returns the cached
payload, and the service worker returns the cached response when the
fetch throws. -/
theorem C1_cache_fallback_witness :
    (∃ r, (getWithCache (V := Nat) (some ⟨42, 0⟩) 1000 5000
        (Except.error ⟨none, "fail"⟩) false).result =
          Except.ok r ∧ r.success = true ∧ r.data = 42 ∧ r.cached = true) ∧
    (handleApiRequest .GET (some ⟨⟨200, "payload"⟩, 0⟩) none 9999999).1 =
      ⟨200, "payload"⟩ :=
  ⟨C1_cache_fallback.1 Nat ⟨42, 0⟩ 1000 5000 ⟨none, "fail"⟩,
   C1_cache_fallback.2 .GET ⟨⟨200, "payload"⟩, 0⟩ 9999999⟩

/-- Claim C2, counterexample.  A 401 response processed while the browser
reports offline (`navigator.onLine` false) does not make `request` throw
an error carrying status 401: the error thrown by `handleError` is caught
by the catch block of `request`, which replaces it with a status-less
network-connection-lost error.  The configured `onTokenExpired` callback
has nevertheless been invoked.  Input: status 401, empty body message,
callback configured, `online = false`. -/
theorem C2_counterexample :
    (processResponse 401 none true false false).1 =
      Except.error
        ⟨none, "Network connection lost. Please check your internet connection."⟩ ∧
    (ApiError.mk none
        "Network connection lost. Please check your internet connection.").status ≠
      some 401 ∧
    (processResponse 401 none true false false).2.1 = true := by
  refine ⟨rfl, by decide, rfl⟩

/-- Claim C2, amended: a 401 response makes `NeurixAPI.request` invoke
the configured `onTokenExpired` callback (exactly when one is
configured), and the call then throws; when the browser reports online
(`navigator.onLine` true) the thrown error carries status 401, and when
the browser reports offline the 401 error is replaced in the catch block
of `request` by a status-less network-connection-lost error. -/
theorem C2_unauthorized_callback (dataMsg : Option String)
    (hasTokenExpired hasRateLimit : Bool) :
    (∀ online : Bool,
      (processResponse 401 dataMsg hasTokenExpired hasRateLimit online).2.1 =
        hasTokenExpired) ∧
    (∃ e, (processResponse 401 dataMsg hasTokenExpired hasRateLimit true).1 =
        Except.error e ∧ e.status = some 401) ∧
    (processResponse 401 dataMsg hasTokenExpired hasRateLimit false).1 =
      Except.error
        ⟨none, "Network connection lost. Please check your internet connection."⟩ := by
  refine ⟨fun online => rfl,
    ⟨(handleError 401 dataMsg hasTokenExpired hasRateLimit).1,
      by simp [processResponse, respOkInt, requestCatch],
      by simp [handleError]⟩,
    by simp [processResponse, respOkInt, requestCatch]⟩

/-- Claim C3: a failing fetch with no cached data propagates to the
caller.  `getWithCache` with an empty cache rethrows the fetch error
whatever `navigator.onLine` says, and the service worker API handler with
an empty cache and a failing fetch returns its 503 error response, which
is not a successful (ok) response. -/
theorem C3_no_cache_propagates :
    (∀ (V : Type) (ttl now : Int) (e : ApiError) (online : Bool),
      (getWithCache (V := V) none ttl now (Except.error e) online).result =
        Except.error e) ∧
    (∀ (method : Method) (now : Int),
      handleApiRequest method none none now = (swOfflineErrorResponse, none) ∧
      swRespOk swOfflineErrorResponse = false) := by
  constructor
  · intro V ttl now e online
    cases online <;> simp [getWithCache, gwcFetch]
  · intro method now
    exact ⟨rfl, rfl⟩

/-- Claim C4, counterexample.  Status 501 is in the 5xx range, yet its
error message is not a fixed user-facing string: it is whatever message
the response body carried, or `HTTP 501` when the body has none. -/
theorem C4_counterexample :
    (handleError 501 (some "boom") false false).1.message = "boom" ∧
    (handleError 501 none false false).1.message = "HTTP 501" ∧
    ("boom" : String) ≠ "HTTP 501" := by
  refine ⟨rfl, rfl, by decide⟩

/-- Claim C4, amended: `handleError` throws for every non-ok response
(`processResponse` yields an error for every status outside [200, 300)),
and the error message is the corresponding fixed user-facing string for
status 403, 404, 422, 429, 500, 502, 503 and 504; other 5xx statuses
keep the default message taken from the response body or
`HTTP <status>`. -/
theorem C4_error_messages (dataMsg : Option String)
    (hasTokenExpired hasRateLimit : Bool) :
    (∀ (status : Int) (online : Bool), respOkInt status = false →
      ∃ e, (processResponse status dataMsg hasTokenExpired hasRateLimit
          online).1 = Except.error e) ∧
    (handleError 403 dataMsg hasTokenExpired hasRateLimit).1.message =
      "You do not have permission to perform this action" ∧
    (handleError 404 dataMsg hasTokenExpired hasRateLimit).1.message =
      "The requested resource was not found" ∧
    (handleError 422 dataMsg hasTokenExpired hasRateLimit).1.message =
      "Validation failed" ∧
    (handleError 429 dataMsg hasTokenExpired hasRateLimit).1.message =
      "Rate limit exceeded. Please try again later." ∧
    (handleError 500 dataMsg hasTokenExpired hasRateLimit).1.message =
      "Internal server error. Please try again later." ∧
    (handleError 502 dataMsg hasTokenExpired hasRateLimit).1.message =
      "Service temporarily unavailable. Please try again later." ∧
    (handleError 503 dataMsg hasTokenExpired hasRateLimit).1.message =
      "Service temporarily unavailable. Please try again later." ∧
    (handleError 504 dataMsg hasTokenExpired hasRateLimit).1.message =
      "Service temporarily unavailable. Please try again later." := by
  refine ⟨?_, rfl, rfl, rfl, rfl, rfl, rfl, rfl, rfl⟩
  intro status online h
  exact ⟨requestCatch
      (handleError status dataMsg hasTokenExpired hasRateLimit).1 online,
    by simp [processResponse, h]⟩

/-- Claim C4 witness: at status 404 with an empty body the call throws,
and the fixed strings hold. -/
theorem C4_error_messages_witness :
    (∃ e, (processResponse 404 none false false true).1 = Except.error e) ∧
    (handleError 403 none false false).1.message =
      "You do not have permission to perform this action" :=
  ⟨(C4_error_messages none false false).1 404 true (by decide),
   (C4_error_messages none false false).2.1⟩

/-- Claim C5: `getWithCache` is cache-first with a staleness check.  A
cached entry whose age is strictly below `ttl` is returned with
`cached: true` and no network request; otherwise the endpoint is fetched
and, on success, the payload is stored with the current timestamp and
returned with `cached: false`. -/
theorem C5_cache_first {V : Type} (ttl now : Int) :
    (∀ (c : CacheEntry V) (net : Except ApiError V) (online : Bool),
      now - c.timestamp < ttl →
      getWithCache (some c) ttl now net online =
        ⟨Except.ok ⟨true, c.data, true, false⟩, some c, false⟩) ∧
    (∀ (cached : Option (CacheEntry V)) (v : V) (online : Bool),
      cacheFresh cached ttl now = false →
      getWithCache cached ttl now (Except.ok v) online =
        ⟨Except.ok ⟨true, v, false, false⟩, some ⟨v, now⟩, true⟩) := by
  constructor
  · intro c net online h
    simp [getWithCache, h]
  · intro cached v online h
    cases cached with
    | none => rfl
    | some c =>
      simp only [cacheFresh, decide_eq_false_iff_not] at h
      simp [getWithCache, h, gwcFetch]

/-- Claim C5 witness: a fresh entry (age 100 below ttl 1000) is served
from cache with no fetch; a stale entry (age 5000) triggers the fetch
and the payload 7 is stored with the current timestamp. -/
theorem C5_cache_first_witness :
    getWithCache (V := Nat) (some ⟨42, 900⟩) 1000 1000
        (Except.error ⟨none, "unused"⟩) true =
      ⟨Except.ok ⟨true, 42, true, false⟩, some ⟨42, 900⟩, false⟩ ∧
    getWithCache (V := Nat) (some ⟨42, 0⟩) 1000 5000 (Except.ok 7) true =
      ⟨Except.ok ⟨true, 7, false, false⟩, some ⟨7, 5000⟩, true⟩ :=
  ⟨(C5_cache_first 1000 1000).1 ⟨42, 900⟩ (Except.error ⟨none, "unused"⟩)
      true (by decide),
   (C5_cache_first 1000 5000).2 (some ⟨42, 0⟩) 7 true (by decide)⟩

/-- Claim C7, counterexample.  A navigation request whose URL path starts
with `/api/` is dispatched to the API handler, not to the network-first
navigation handler, because the fetch listener tests the path before the
mode; with a fresh cached entry the API handler serves the cached
response without trying the network, so this intercepted navigation
request is not handled network-first.  Input: GET navigation to
`/api/models` over https, cached response `cached-body` stored at time 0,
network available with a different response `network-body`, now 1000. -/
theorem C7_counterexample :
    fetchHandlerFor ⟨.GET, "https:", "/api/models", .navigate⟩ =
      SWHandler.api ∧
    SWHandler.api ≠ SWHandler.navigation ∧
    handleApiRequest .GET (some ⟨⟨200, "cached-body"⟩, 0⟩)
        (some ⟨200, "network-body"⟩) 1000 =
      (⟨200, "cached-body"⟩, some ⟨⟨200, "cached-body"⟩, 0⟩) ∧
    (⟨200, "cached-body"⟩ : SWResponse) ≠ ⟨200, "network-body"⟩ := by
  refine ⟨by decide, by decide, ?_, by decide⟩
  simp [handleApiRequest, apiCacheTtl]

/-- Claim C7, amended: every GET navigation request that is not a
chrome-extension request and whose URL path does not start with `/api/`
is dispatched to `handlePageNavigation`, which is network-first with
cache fallback: on network success the response is returned and a copy is
stored in the cache; on network failure the cached copy of the request is
returned when present, and otherwise the result of the cache lookup of
`/offline.html` is returned. -/
theorem C7_navigation_policy :
    (∀ req : SWRequest, req.mode = .navigate → req.method = .GET →
      req.protocol ≠ "chrome-extension:" →
      strStartsWith req.path "/api/" = false →
      fetchHandlerFor req = SWHandler.navigation) ∧
    (∀ (r : SWResponse) (cachedPage offlinePage : Option SWResponse),
      handlePageNavigation (some r) cachedPage offlinePage =
        (some r, some r)) ∧
    (∀ (c : SWResponse) (offlinePage : Option SWResponse),
      handlePageNavigation none (some c) offlinePage = (some c, some c)) ∧
    (∀ offlinePage : Option SWResponse,
      handlePageNavigation none none offlinePage = (offlinePage, none)) := by
  refine ⟨?_, fun r cachedPage offlinePage => rfl,
    fun c offlinePage => rfl, fun offlinePage => rfl⟩
  intro req hmode hmethod hproto hpath
  simp [fetchHandlerFor, hmode, hmethod, hproto, hpath]

/-- Claim C7 witness: a GET navigation to `/dashboard` over https is
dispatched to the navigation handler; concrete network success, cache
fallback and offline-page fallback instances. -/
theorem C7_navigation_policy_witness :
    fetchHandlerFor ⟨.GET, "https:", "/dashboard", .navigate⟩ =
      SWHandler.navigation ∧
    handlePageNavigation (some ⟨200, "fresh"⟩) (some ⟨200, "old"⟩)
        (some ⟨200, "off"⟩) = (some ⟨200, "fresh"⟩, some ⟨200, "fresh"⟩) ∧
    handlePageNavigation none (some ⟨200, "old"⟩) (some ⟨200, "off"⟩) =
      (some ⟨200, "old"⟩, some ⟨200, "old"⟩) ∧
    handlePageNavigation none none (some ⟨200, "off"⟩) =
      (some ⟨200, "off"⟩, none) :=
  ⟨C7_navigation_policy.1 ⟨.GET, "https:", "/dashboard", .navigate⟩
      rfl rfl (by decide) (by decide),
   C7_navigation_policy.2.1 ⟨200, "fresh"⟩ (some ⟨200, "old"⟩)
      (some ⟨200, "off"⟩),
   C7_navigation_policy.2.2.1 ⟨200, "old"⟩ (some ⟨200, "off"⟩),
   C7_navigation_policy.2.2.2 (some ⟨200, "off"⟩)⟩

/-- Claim C8: every ledger entry recorded by `NeurixAPI.request` has a
non-null identifier (the generated id is a nonempty string), the entry
records the call time as its timestamp, and for two successive calls —
whose call times satisfy `t1 ≤ t2`, since `Date.now()` is non-decreasing
— the recorded timestamps are monotonically non-decreasing. -/
theorem C8_ledger_invariants :
    (∀ (now : Int) (rand : String), generateRequestId now rand ≠ "") ∧
    (∀ (now : Int) (rand endpoint : String) (method : Method),
      (trackRequest now rand endpoint method).id =
        generateRequestId now rand ∧
      (trackRequest now rand endpoint method).timestamp = now) ∧
    (∀ (t1 t2 : Int) (r1 r2 e1 e2 : String) (m1 m2 : Method),
      t1 ≤ t2 →
      (trackRequest t1 r1 e1 m1).timestamp ≤
        (trackRequest t2 r2 e2 m2).timestamp) := by
  refine ⟨?_, fun now rand endpoint method => ⟨rfl, rfl⟩,
    fun t1 t2 r1 r2 e1 e2 m1 m2 h => h⟩
  intro now rand h
  have hlen : (generateRequestId now rand).length =
      "req_".length + (toString now).length + "_".length + rand.length := by
    simp [generateRequestId, String.length_append]
  have h0 : (generateRequestId now rand).length = 0 := by rw [h]; rfl
  rw [hlen] at h0
  have h4 : ("req_" : String).length = 4 := rfl
  rw [h4] at h0
  omega

/-- Claim C8 witness: at concrete times 100 ≤ 200 the recorded
timestamps are ordered, and the generated id is nonempty. -/
theorem C8_ledger_invariants_witness :
    generateRequestId 100 "abc" ≠ "" ∧
    (trackRequest 100 "abc" "/models" .GET).timestamp ≤
      (trackRequest 200 "xyz" "/devices" .GET).timestamp :=
  ⟨C8_ledger_invariants.1 100 "abc",
   C8_ledger_invariants.2.2 100 200 "abc" "xyz" "/models" "/devices"
      .GET .GET (by decide)⟩

/-- Helper: `handleApiRequest` leaves the API cache unchanged for every
non-GET method. -/
theorem handleApiRequest_nonGet_cache (method : Method)
    (cached : Option CachedApi) (net : Option SWResponse) (now : Int)
    (h : method ≠ .GET) :
    (handleApiRequest method cached net now).2 = cached := by
  cases cached with
  | none =>
    cases net with
    | none => simp [handleApiRequest, handleApiFetch]
    | some r => simp [handleApiRequest, handleApiFetch, h]
  | some c =>
    cases net with
    | none => simp [handleApiRequest, handleApiFetch, h]
    | some r => simp [handleApiRequest, handleApiFetch, h]

/-- Claim C9: the fetch listener never responds to a non-GET request
(it passes through to the network untouched); the API handler leaves the
cache unchanged for non-GET methods; and in general the API cache is
written only when the network response is ok and the method is GET. -/
theorem C9_no_write_caching :
    (∀ req : SWRequest, req.method ≠ .GET →
      fetchHandlerFor req = SWHandler.passThrough) ∧
    (∀ (method : Method) (cached : Option CachedApi)
        (net : Option SWResponse) (now : Int), method ≠ .GET →
      (handleApiRequest method cached net now).2 = cached) ∧
    (∀ (method : Method) (cached : Option CachedApi)
        (net : Option SWResponse) (now : Int),
      (handleApiRequest method cached net now).2 = cached ∨
      ∃ r, net = some r ∧ swRespOk r = true ∧ method = .GET ∧
        (handleApiRequest method cached net now).2 = some ⟨r, now⟩) := by
  refine ⟨?_, ?_, ?_⟩
  · intro req h
    simp [fetchHandlerFor, h]
  · intro method cached net now h
    exact handleApiRequest_nonGet_cache method cached net now h
  · intro method cached net now
    by_cases hg : method = .GET
    · subst hg
      cases net with
      | none =>
        left
        cases cached with
        | none => simp [handleApiRequest, handleApiFetch]
        | some c => simp [handleApiRequest, handleApiFetch]
      | some r =>
        by_cases hok : swRespOk r = true
        · cases cached with
          | none =>
            right
            exact ⟨r, rfl, hok, rfl, by simp [handleApiRequest, handleApiFetch, hok]⟩
          | some c =>
            by_cases hfresh : now - c.time < apiCacheTtl
            · left
              simp [handleApiRequest, hfresh]
            · right
              exact ⟨r, rfl, hok, rfl,
                by simp [handleApiRequest, hfresh, handleApiFetch, hok]⟩
        · left
          cases cached with
          | none => simp [handleApiRequest, handleApiFetch, hok]
          | some c =>
            by_cases hfresh : now - c.time < apiCacheTtl
            · simp [handleApiRequest, hfresh]
            · simp [handleApiRequest, hfresh, handleApiFetch, hok]
    · left
      exact handleApiRequest_nonGet_cache method cached net now hg

/-- Claim C9 witness: a POST request passes through the fetch listener,
and a POST through the API handler leaves the cache unchanged. -/
theorem C9_no_write_caching_witness :
    fetchHandlerFor ⟨.POST, "https:", "/api/models", .cors⟩ =
      SWHandler.passThrough ∧
    (handleApiRequest .POST (some ⟨⟨200, "cached"⟩, 0⟩)
        (some ⟨200, "net"⟩) 1000).2 = some ⟨⟨200, "cached"⟩, 0⟩ :=
  ⟨C9_no_write_caching.1 ⟨.POST, "https:", "/api/models", .cors⟩ (by decide),
   C9_no_write_caching.2.1 .POST (some ⟨⟨200, "cached"⟩, 0⟩)
      (some ⟨200, "net"⟩) 1000 (by decide)⟩

/-- Claim C10: `batch` maps each input request, in order, to its own
result entry: the output has the same length as the input, the i-th entry
is the per-request try/catch image of the i-th request outcome, successes
become `success` entries, and errors are captured as `failure` entries
instead of propagating (the function is total, so `batch` never
throws). -/
theorem C10_batch {R V : Type} (exec : R → Except ApiError V)
    (reqs : List R) :
    (batch exec reqs).length = reqs.length ∧
    (∀ i : Nat, (batch exec reqs)[i]? =
      (reqs[i]?).map (fun r => batchEntryOf (exec r))) ∧
    (∀ v : V, batchEntryOf (V := V) (Except.ok v) = BatchEntry.ok v) ∧
    (∀ e : ApiError, batchEntryOf (V := V) (Except.error e) =
      BatchEntry.err e) := by
  have hmap : batch exec reqs = reqs.map (fun r => batchEntryOf (exec r)) := by
    induction reqs with
    | nil => rfl
    | cons r rest ih => simp [batch, ih]
  refine ⟨by rw [hmap]; simp, ?_, fun v => rfl, fun e => rfl⟩
  intro i
  rw [hmap]
  simp [List.getElem?_map]

/-- Helper: the expected backoff list for `k + 1` loop iterations starting
at index `i` begins with the delay of index `i`. -/
theorem delaysExpected_succ (d : Int) (i k : Nat) :
    delaysExpected d i (k + 1) = d * 2 ^ i :: delaysExpected d (i + 1) k := by
  unfold delaysExpected
  rw [List.range_succ_eq_map, List.map_cons, List.map_map]
  refine congrArg₂ _ (by simp) ?_
  apply List.map_congr_left
  intro j _
  simp only [Function.comp_apply]
  have : i + (j + 1) = i + 1 + j := by omega
  rw [Nat.succ_eq_add_one, this]

/-- Helper: one iteration of the retry loop on a retryable failure saves
the error, awaits the backoff delay of the current index and continues. -/
theorem retryAux_step {V : Type} (attempt : Nat → Except ApiError V)
    (delayMs : Int) (i r : Nat) (lastError : Option ApiError) (e : ApiError)
    (h : attempt i = .error e) (hn : nonRetryable e = false) :
    retryAux attempt delayMs i (r + 1) lastError =
      ⟨(retryAux attempt delayMs (i + 1) r (some e)).result,
        delayMs * 2 ^ i :: (retryAux attempt delayMs (i + 1) r (some e)).delays,
        (retryAux attempt delayMs (i + 1) r (some e)).calls + 1⟩ := by
  simp only [retryAux, h, hn, Bool.false_eq_true, if_false]

/-- Helper: the retry loop performs at most `r` invocations of the
request function when `r` iterations remain. -/
theorem retryAux_calls_le {V : Type} (attempt : Nat → Except ApiError V)
    (delayMs : Int) : ∀ (r i : Nat) (lastError : Option ApiError),
    (retryAux attempt delayMs i r lastError).calls ≤ r := by
  intro r
  induction r with
  | zero => intro i lastError; simp [retryAux]
  | succ r ih =>
    intro i lastError
    cases h : attempt i with
    | ok v => simp [retryAux, h]
    | error e =>
      cases hn : nonRetryable e with
      | true => simp [retryAux, h, hn]
      | false =>
        simp only [retryAux, h, hn, Bool.false_eq_true, if_false]
        exact Nat.succ_le_succ (ih (i + 1) (some e))

/-- Helper: when the attempts at loop indices `i, ..., i+k-1` fail
retryably and the attempt at index `i+k` succeeds with `v`, the loop
returns `v`, awaits exactly the `k` backoff delays of the failed
attempts, and makes `k + 1` invocations. -/
theorem retryAux_first_success {V : Type} (attempt : Nat → Except ApiError V)
    (delayMs : Int) : ∀ (k i r : Nat) (lastError : Option ApiError) (v : V),
    k < r →
    (∀ j, j < k → ∃ e, attempt (i + j) = .error e ∧ nonRetryable e = false) →
    attempt (i + k) = .ok v →
    retryAux attempt delayMs i r lastError =
      ⟨.ok v, delaysExpected delayMs i k, k + 1⟩ := by
  intro k
  induction k with
  | zero =>
    intro i r lastError v hk _ hok
    obtain ⟨r2, rfl⟩ : ∃ r2, r = r2 + 1 := ⟨r - 1, by omega⟩
    simp only [Nat.add_zero] at hok
    simp [retryAux, hok, delaysExpected]
  | succ k ih =>
    intro i r lastError v hk hfail hok
    obtain ⟨r2, rfl⟩ : ∃ r2, r = r2 + 1 := ⟨r - 1, by omega⟩
    obtain ⟨e0, he0, hr0⟩ := hfail 0 (Nat.succ_pos k)
    rw [Nat.add_zero] at he0
    have hrec : retryAux attempt delayMs (i + 1) r2 (some e0) =
        ⟨.ok v, delaysExpected delayMs (i + 1) k, k + 1⟩ := by
      refine ih (i + 1) r2 (some e0) v (by omega) ?_ ?_
      · intro j hj
        obtain ⟨e, he, hr⟩ := hfail (j + 1) (by omega)
        refine ⟨e, ?_, hr⟩
        rw [show i + 1 + j = i + (j + 1) from by omega]
        exact he
      · rw [show i + 1 + k = i + (k + 1) from by omega]
        exact hok
    simp only [retryAux, he0, hr0, Bool.false_eq_true, if_false, hrec,
      delaysExpected_succ]

/-- Helper: when the attempts at loop indices `i, ..., i+k-1` fail
retryably and the attempt at index `i+k` fails non-retryably with `e`,
the loop breaks and throws `e` after `k + 1` invocations, with no delay
after the breaking attempt. -/
theorem retryAux_break {V : Type} (attempt : Nat → Except ApiError V)
    (delayMs : Int) : ∀ (k i r : Nat) (lastError : Option ApiError)
    (e : ApiError),
    k < r →
    (∀ j, j < k → ∃ e2, attempt (i + j) = .error e2 ∧ nonRetryable e2 = false) →
    attempt (i + k) = .error e → nonRetryable e = true →
    retryAux attempt delayMs i r lastError =
      ⟨.error (some e), delaysExpected delayMs i k, k + 1⟩ := by
  intro k
  induction k with
  | zero =>
    intro i r lastError e hk _ herr hn
    obtain ⟨r2, rfl⟩ : ∃ r2, r = r2 + 1 := ⟨r - 1, by omega⟩
    rw [Nat.add_zero] at herr
    simp [retryAux, herr, hn, delaysExpected]
  | succ k ih =>
    intro i r lastError e hk hfail herr hn
    obtain ⟨r2, rfl⟩ : ∃ r2, r = r2 + 1 := ⟨r - 1, by omega⟩
    obtain ⟨e0, he0, hr0⟩ := hfail 0 (Nat.succ_pos k)
    rw [Nat.add_zero] at he0
    have hrec : retryAux attempt delayMs (i + 1) r2 (some e0) =
        ⟨.error (some e), delaysExpected delayMs (i + 1) k, k + 1⟩ := by
      refine ih (i + 1) r2 (some e0) e (by omega) ?_ ?_ hn
      · intro j hj
        obtain ⟨e2, he2, hr2⟩ := hfail (j + 1) (by omega)
        refine ⟨e2, ?_, hr2⟩
        rw [show i + 1 + j = i + (j + 1) from by omega]
        exact he2
      · rw [show i + 1 + k = i + (k + 1) from by omega]
        exact herr
    simp only [retryAux, he0, hr0, Bool.false_eq_true, if_false, hrec,
      delaysExpected_succ]

/-- Helper: when every one of the `r + 1` remaining attempts fails
retryably, the loop exhausts its budget, awaits a backoff delay after
every failed attempt (the last one included), and throws the error of
the final attempt. -/
theorem retryAux_exhaust {V : Type} (attempt : Nat → Except ApiError V)
    (delayMs : Int) : ∀ (r i : Nat) (lastError : Option ApiError)
    (e : ApiError),
    (∀ j, j < r + 1 → ∃ e2, attempt (i + j) = .error e2 ∧ nonRetryable e2 = false) →
    attempt (i + r) = .error e →
    retryAux attempt delayMs i (r + 1) lastError =
      ⟨.error (some e), delaysExpected delayMs i (r + 1), r + 1⟩ := by
  intro r
  induction r with
  | zero =>
    intro i lastError e hfail herr
    rw [Nat.add_zero] at herr
    obtain ⟨e0, he0, hr0⟩ := hfail 0 Nat.one_pos
    rw [Nat.add_zero] at he0
    rw [he0] at herr
    injection herr with herr
    subst herr
    simp [retryAux, he0, hr0, delaysExpected, List.range_succ]
  | succ r ih =>
    intro i lastError e hfail herr
    obtain ⟨e0, he0, hr0⟩ := hfail 0 (Nat.succ_pos (r + 1))
    rw [Nat.add_zero] at he0
    have hrec : retryAux attempt delayMs (i + 1) (r + 1) (some e0) =
        ⟨.error (some e), delaysExpected delayMs (i + 1) (r + 1), r + 1⟩ := by
      refine ih (i + 1) (some e0) e ?_ ?_
      · intro j hj
        obtain ⟨e2, he2, hr2⟩ := hfail (j + 1) (by omega)
        refine ⟨e2, ?_, hr2⟩
        rw [show i + 1 + j = i + (j + 1) from by omega]
        exact he2
      · rw [show i + 1 + r = i + (r + 1) from by omega]
        exact herr
    rw [retryAux_step attempt delayMs i (r + 1) lastError e0 he0 hr0, hrec]
    simp [delaysExpected_succ]

/-- Helper: the expected backoff list starting at loop index 0 uses the
exponents `0, 1, ..., k-1`. -/
theorem delaysExpected_zero (d : Int) (k : Nat) :
    delaysExpected d 0 k = (List.range k).map (fun j => d * 2 ^ j) := by
  unfold delaysExpected
  simp

/-- Claim C6: `NeurixAPI.retry(requestFn, maxRetries, delayMs)` invokes
the request function at most `maxRetries` times; it returns the first
successful result (after `i` retryable failures the success at attempt
`i` is returned after `i + 1` invocations, with backoff delays
`delayMs * 2 ^ 0, ..., delayMs * 2 ^ (i-1)` awaited); a failure with a
status in [400, 500) other than 429 stops the loop immediately and is
thrown; and when every attempt fails retryably the budget is exhausted,
a delay of `delayMs * 2 ^ j` is awaited after the j-th failed attempt,
and the error of the last attempt is thrown. -/
theorem C6_retry {V : Type} (attempt : Nat → Except ApiError V)
    (maxRetries : Nat) (delayMs : Int) :
    ((retry attempt maxRetries delayMs).calls ≤ maxRetries) ∧
    (∀ (i : Nat) (v : V), i < maxRetries →
      (∀ j, j < i → ∃ e, attempt j = .error e ∧ nonRetryable e = false) →
      attempt i = .ok v →
      retry attempt maxRetries delayMs =
        ⟨.ok v, (List.range i).map (fun j => delayMs * 2 ^ j), i + 1⟩) ∧
    (∀ (i : Nat) (e : ApiError), i < maxRetries →
      (∀ j, j < i → ∃ e2, attempt j = .error e2 ∧ nonRetryable e2 = false) →
      attempt i = .error e → nonRetryable e = true →
      retry attempt maxRetries delayMs =
        ⟨.error (some e), (List.range i).map (fun j => delayMs * 2 ^ j),
          i + 1⟩) ∧
    (∀ (r : Nat) (e : ApiError), maxRetries = r + 1 →
      (∀ j, j < maxRetries →
        ∃ e2, attempt j = .error e2 ∧ nonRetryable e2 = false) →
      attempt r = .error e →
      retry attempt maxRetries delayMs =
        ⟨.error (some e),
          (List.range maxRetries).map (fun j => delayMs * 2 ^ j),
          maxRetries⟩) := by
  refine ⟨retryAux_calls_le attempt delayMs maxRetries 0 none, ?_, ?_, ?_⟩
  · intro i v hi hfail hok
    rw [← delaysExpected_zero]
    refine retryAux_first_success attempt delayMs i 0 maxRetries none v hi
      ?_ (by simpa using hok)
    intro j hj
    simpa using hfail j hj
  · intro i e hi hfail herr hn
    rw [← delaysExpected_zero]
    refine retryAux_break attempt delayMs i 0 maxRetries none e hi
      ?_ (by simpa using herr) hn
    intro j hj
    simpa using hfail j hj
  · intro r e hmax hfail herr
    subst hmax
    rw [← delaysExpected_zero]
    refine retryAux_exhaust attempt delayMs r 0 none e ?_ (by simpa using herr)
    intro j hj
    simpa using hfail j hj

/-- Claim C6 witness: with attempts failing retryably at index 0 (a
network error with no status) and succeeding with 7 at index 1, a
`retry` with budget 3 and base delay 100 returns 7 after two invocations
and a single backoff delay of `100 * 2 ^ 0`; and with a non-retryable
404 at index 0 the loop stops after one invocation. -/
theorem C6_retry_witness :
    retry (fun k => if k = 0 then Except.error ⟨none, "netfail"⟩
        else Except.ok (7 : Nat)) 3 100 =
      ⟨Except.ok 7, [100], 2⟩ ∧
    retry (fun _ => (Except.error ⟨some 404, "gone"⟩ : Except ApiError Nat))
        3 100 =
      ⟨Except.error (some ⟨some 404, "gone"⟩), [], 1⟩ := by
  constructor
  · have h := (C6_retry (fun k => if k = 0 then
        Except.error ⟨none, "netfail"⟩ else Except.ok (7 : Nat)) 3 100).2.1
      1 7 (by decide) ?_ (by decide)
    · rw [h]; rfl
    · intro j hj
      interval_cases j
      exact ⟨⟨none, "netfail"⟩, by decide, by decide⟩
  · have h := (C6_retry (fun _ =>
        (Except.error ⟨some 404, "gone"⟩ : Except ApiError Nat)) 3 100).2.2.1
      0 ⟨some 404, "gone"⟩ (by decide) (by omega) (by decide) (by decide)
    rw [h]; rfl

end Neurix
